import Mathlib

/-!
Verification of the Parkinsons ML inference server (`app.py` eager variant and
`ml-server/app.py` lazy variant) against its specification.

Shallow embedding conventions:
* numpy float32 / Python float values are modelled as exact rationals (ℚ);
  numeric claims here are about which arithmetic the code performs, not about
  rounding of the underlying IEEE formats.
* External collaborators (the OpenCV codec `cv2.imdecode`, the OpenCV bilinear
  kernel `cv2.resize`, the trained models' forward passes) enter the model as
  parameters or abstract fields: the embedding covers exactly the repository's
  own arithmetic and control flow around them.
* An HTTP route handler is a total function returning `Except HttpError r`:
  `.error ⟨status, detail⟩` models `raise HTTPException(status, detail)`.
-/

namespace ParkinsonsML

/-- An HTTP error response, as raised by `HTTPException(status_code, detail)`. -/
structure HttpError where
  status : ℕ
  detail : String
deriving Repr, DecidableEq

/-- A numpy ndarray of rationals: a shape together with the row-major flat data.
`shape.length` is `arr.ndim`; `shape.get? i` is `arr.shape[i]` (`none` models the
`IndexError` of an out-of-range index). -/
structure NDArray where
  shape : List ℕ
  data : List ℚ
deriving Repr, DecidableEq

/-- Embeds `np.reshape(arr, (1, -1))`: row-major flatten into a single row.
numpy keeps the flat element order unchanged. -/
def reshape1xN (a : NDArray) : NDArray :=
  ⟨[1, a.data.length], a.data⟩

/-- From `app.py` line 30 / `ml-server/app.py` line 41:
`VOICE_LABELS = {0: "healthy", 1: "parkinsons"}`, as a partial lookup
(`none` models a `KeyError` on direct subscripting). -/
def VOICE_LABELS (k : ℤ) : Option String :=
  if k = 0 then some "healthy" else if k = 1 then some "parkinsons" else none

/-- Embeds `preprocess_voice_from_npy_bytes` (`app.py` lines 89-102), after the external
`np.load` has produced the parsed array `arr` (a load failure raises before this
logic and is not modelled here).  `np.array(arr).astype(np.float32)` is the
identity on our exact values.  Then:
`if arr.ndim == 1: arr = arr.reshape(1, -1)`
`elif arr.ndim == 2 and arr.shape[0] != 1: arr = arr.reshape(1, -1)`. -/
def preprocess_voice_from_npy_bytes (arr : NDArray) : NDArray :=
  match arr.shape with
  | [_] => reshape1xN arr
  | [d0, _] => if d0 ≠ 1 then reshape1xN arr else arr
  | _ => arr

/-- Embeds `preprocess_voice_from_list` (`app.py` lines 104-105):
`np.array(features, dtype=np.float32).reshape(1, -1)`. -/
def preprocess_voice_from_list (features : List ℚ) : NDArray :=
  ⟨[1, features.length], features⟩

/-- The voice model handle (`voice_model` loaded by joblib), abstract:
`predict` models `model.predict(arr)[0]` (an integer class id),
`hasProba` models `hasattr(model, "predict_proba")`,
`classes_` models the `model.classes_` attribute, and
`predictProba` models the row `model.predict_proba(arr)[0]`. -/
structure VoiceModel where
  predict : NDArray → ℤ
  hasProba : Bool
  classes_ : List ℤ
  predictProba : NDArray → List ℚ

/-- Python `dict` assignment `d[k] = v`: overwrite the value if the key is
present, otherwise append the pair (insertion order preserved). -/
def dictInsert (d : List (String × ℚ)) (k : String) (v : ℚ) : List (String × ℚ) :=
  if d.any (fun p => p.1 = k) then
    d.map (fun p => if p.1 = k then (k, v) else p)
  else d ++ [(k, v)]

/-- The loop `for cls, p in zip(model.classes_, probs): prob_dict[VOICE_LABELS[int(cls)]] = float(p)`
(`app.py` lines 173-174).  Direct subscripting `VOICE_LABELS[int(cls)]` raises
`KeyError` for a class id outside {0, 1}; that exception reaches the generic
handler and becomes a 500. -/
def buildProbDict : List (ℤ × ℚ) → List (String × ℚ) → Except HttpError (List (String × ℚ))
  | [], d => .ok d
  | (c, p) :: rest, d =>
    match VOICE_LABELS c with
    | some lbl => buildProbDict rest (dictInsert d lbl p)
    | none => .error ⟨500, "Voice prediction failed: KeyError"⟩

/-- Python `max` over a list of values (`max(probs)`, `app.py` line 175);
`none` models the `ValueError` on an empty sequence. -/
def pyMax : List ℚ → Option ℚ
  | [] => none
  | x :: xs => some (xs.foldl max x)

/-- The parsed input of a `POST /predict/voice` request, after the web framework
and JSON layer: an uploaded `.npy` file already parsed by `np.load`, a JSON
object with a `"features"` key, a bare JSON array, or any other JSON body. -/
inductive VoiceInput where
  | npyFile (arr : NDArray)
  | jsonFeatures (features : List ℚ)
  | jsonArray (features : List ℚ)
  | jsonOther
deriving Repr

/-- The success payload of `POST /predict/voice` (`app.py` lines 180-184);
`probability` is the Python dict as an insertion-ordered association list. -/
structure VoiceResponse where
  prediction : String
  confidence : ℚ
  probability : List (String × ℚ)
deriving Repr, DecidableEq

/-- The input-dispatch block of `predict_voice` (`app.py` lines 149-158):
file upload → `preprocess_voice_from_npy_bytes`; JSON with `"features"` or a
bare array → `preprocess_voice_from_list`; anything else → 400. -/
def voicePreprocess : VoiceInput → Except HttpError NDArray
  | .npyFile arr => .ok (preprocess_voice_from_npy_bytes arr)
  | .jsonFeatures fs => .ok (preprocess_voice_from_list fs)
  | .jsonArray fs => .ok (preprocess_voice_from_list fs)
  | .jsonOther => .error ⟨400, "Invalid voice input"⟩

/-- Embeds `predict_voice` (`app.py` lines 144-189): dispatch the input, check
`arr.shape[1] != 22`, predict, look up the label with
`VOICE_LABELS.get(pred, str(pred))`, then either build the probability
distribution from `predict_proba` with `confidence = max(probs)`, or emit the
degenerate `{label: 1.0}` with confidence 1.0. -/
def predict_voice (m : VoiceModel) (input : VoiceInput) : Except HttpError VoiceResponse :=
  match voicePreprocess input with
  | .error e => .error e
  | .ok arr =>
    match arr.shape.get? 1 with
    | none => .error ⟨500, "Voice prediction failed: IndexError"⟩
    | some w =>
      if w ≠ 22 then
        .error ⟨400, "Expected 22 features, got " ++ toString w⟩
      else
        let pred := m.predict arr
        let label := (VOICE_LABELS pred).getD (toString pred)
        if m.hasProba then
          let probs := m.predictProba arr
          match buildProbDict (m.classes_.zip probs) [] with
          | .error e => .error e
          | .ok probDict =>
            match pyMax probs with
            | none => .error ⟨500, "Voice prediction failed: ValueError"⟩
            | some confidence => .ok ⟨label, confidence, probDict⟩
        else
          .ok ⟨label, 1, [(label, 1)]⟩

/-! ### MRI image pipeline -/

/-- numpy dtypes that occur in the MRI pipeline. -/
inductive DType where
  | uint8
  | float32
deriving Repr, DecidableEq

/-- The result of the external `cv2.imdecode(nparr, cv2.IMREAD_COLOR)`: a
height × width pixel buffer with 3 channels in BGR order (channel 0 = blue,
1 = green, 2 = red), uint8 magnitudes 0-255 held as exact rationals. -/
structure DecodedImage where
  h : ℕ
  w : ℕ
  px : Fin h → Fin w → Fin 3 → ℚ

/-- Embeds `cv2.cvtColor(img_bgr, cv2.COLOR_BGR2RGB)`: reverse the channel order, so
output channel 0 (red) reads input channel 2, channel 1 stays, channel 2 (blue)
reads input channel 0. -/
def cvtColor_BGR2RGB {h w : ℕ} (px : Fin h → Fin w → Fin 3 → ℚ) :
    Fin h → Fin w → Fin 3 → ℚ :=
  fun i j c => px i j ⟨2 - c.val, by omega⟩

/-- The type of the external `cv2.resize(·, IMG_SIZE)` with `IMG_SIZE = (128, 128)`
and the default bilinear interpolation: OpenCV's fixed-point kernel is external
code, so it enters the embedding as a parameter taking the source pixel buffer
to a 128×128 one. -/
def ResizeFn : Type :=
  ∀ h w : ℕ, (Fin h → Fin w → Fin 3 → ℚ) → Fin 128 → Fin 128 → Fin 3 → ℚ

/-- The tensor returned by the MRI preprocessor: the value buffer is indexed
batch × 128 × 128 × 3; `dtype` and `shape` model the numpy attributes of the
returned array. -/
structure Tensor4 where
  dtype : DType
  shape : ℕ × ℕ × ℕ × ℕ
  val : Fin 1 → Fin 128 → Fin 128 → Fin 3 → ℚ

/-- The success branch of `preprocess_mri_from_bytes` (`app.py` lines 78-84):
`cv2.cvtColor(img_bgr, cv2.COLOR_BGR2RGB)`, then `cv2.resize(img_rgb, IMG_SIZE)`
(the external bilinear kernel `resize`), then `astype(np.float32)` (exact on our
values, recorded in `dtype`), then `np.expand_dims(img_f, axis=0)` giving shape
(1, 128, 128, 3).  No scaling or normalization is applied to the pixel values. -/
def mriTensor (resize : ResizeFn) (img : DecodedImage) : Tensor4 :=
  let img_rgb := cvtColor_BGR2RGB img.px
  let img_resized := resize img.h img.w img_rgb
  ⟨.float32, (1, 128, 128, 3), fun _ i j c => img_resized i j c⟩

/-- Embeds `preprocess_mri_from_bytes` (`app.py` lines 64-84), taking the result of the
external `cv2.imdecode` on the uploaded bytes: `none` means the codec returned
`None`, i.e. undecodable bytes, raising `ValueError("Invalid image")`; otherwise
the decoded buffer is converted and packed by `mriTensor`. -/
def preprocess_mri_from_bytes (resize : ResizeFn) (decoded : Option DecodedImage) :
    Except String Tensor4 :=
  match decoded with
  | none => .error "Invalid image"
  | some img => .ok (mriTensor resize img)

/-- Embeds `np.clip(x, lo, hi)` on scalars: `np.minimum(hi, np.maximum(lo, x))`. -/
def np_clip (x lo hi : ℚ) : ℚ := min hi (max lo x)

/-- The Python literal `0.5` used as the decision threshold, written as an
explicit reduced fraction so that the kernel can evaluate comparisons
against it on concrete inputs. -/
def pyHalf : ℚ := ⟨1, 2, by decide, by decide⟩

theorem pyHalf_eq : pyHalf = 1 / 2 := by
  show Rat.mk' 1 2 = 1 / 2
  rw [Rat.mk'_eq_divInt, Rat.divInt_eq_div]
  norm_num

/-- Embeds `content_type.split("/")[0]`: the characters before the first `/`
(equal to Python's split-then-index-0 for every string). -/
def primaryType (ct : String) : String :=
  String.mk (ct.toList.takeWhile (fun c => c ≠ '/'))

/-- A `POST /predict/mri` request as seen by the handler: whether the multipart
`file` field is present, its declared `content_type` (`none` models Python-falsy
`None`), and the result of the external `cv2.imdecode` on the uploaded bytes. -/
structure MriRequest where
  filePresent : Bool
  contentType : Option String
  decodesTo : Option DecodedImage

/-- The success payload of `POST /predict/mri` in the eager variant
(`app.py` line 138). -/
structure MriResponse where
  prediction : String
  confidence : ℚ
deriving Repr, DecidableEq

/-- Embeds `predict_mri` of the eager variant (`app.py` lines 119-141), parameterised
by the external bilinear kernel and the loaded model's forward pass
`predictScalar` (modelling `float(model.predict(x).ravel()[0])`):
400 when no file / falsy content type, 400 when the primary content type is not
`image`; inside the `try`, preprocess (a decode failure raises
`ValueError("Invalid image")`, caught by the blanket `except Exception` and
re-raised as a 500 `f"MRI prediction failed: {e}"`), clip the raw scalar into
[0, 1], label `"parkinsons"` iff the clipped value exceeds 0.5, and return the
clipped value itself as the confidence. -/
def predict_mri (resize : ResizeFn) (predictScalar : Tensor4 → ℚ)
    (req : MriRequest) : Except HttpError MriResponse :=
  if req.filePresent = false then .error ⟨400, "No file uploaded"⟩
  else
    match req.contentType with
    | none => .error ⟨400, "No file uploaded"⟩
    | some ct =>
      if ct = "" then .error ⟨400, "No file uploaded"⟩
      else if primaryType ct ≠ "image" then .error ⟨400, "Upload an image file"⟩
      else
        match preprocess_mri_from_bytes resize req.decodesTo with
        | .error e => .error ⟨500, "MRI prediction failed: " ++ e⟩
        | .ok x =>
          let prob := np_clip (predictScalar x) 0 1
          let label := if prob > pyHalf then "parkinsons" else "normal"
          .ok ⟨label, prob⟩

/-! ### Lazy model registry (`ml-server/app.py` lines 62-109)

The globals `mri_model`, `voice_model` and `_voice_has_proba` are modelled as
explicit state threaded through the load functions; the external work of one
load attempt (the `os.path.exists` check plus `tf.keras.models.load_model` /
`joblib.load`) is a parameter of type `Except String _`: `.error` is the text
of the exception the attempt raises, `.ok` the produced handle. -/

/-- The MRI model handle of the lazy variant: the loaded model's forward pass
`float(model.predict(x).ravel()[0])` on the preprocessed tensor. -/
structure MriHandle where
  predictScalar : Tensor4 → ℚ

/-- Embeds `load_mri_model` (`ml-server/app.py` lines 66-86): return the cached global
if set; otherwise run the external load and, on success, store the handle in
the global and return it.  On failure the exception propagates and the global
stays `None`. -/
def load_mri_model (st : Option MriHandle) (act : Except String MriHandle) :
    Except String (MriHandle × Option MriHandle) :=
  match st with
  | some m => .ok (m, some m)
  | none =>
    match act with
    | .ok m => .ok (m, some m)
    | .error e => .error e

/-- The globals of the voice side of the lazy variant
(`ml-server/app.py` lines 63-64): `voice_model` and `_voice_has_proba`. -/
structure VoiceGlobals where
  voice_model : Option VoiceModel
  voice_has_proba : Bool

/-- Embeds `load_voice_model` (`ml-server/app.py` lines 88-109): return the cached
global if set; otherwise run the external load and, on success, store the
handle and set `_voice_has_proba = hasattr(voice_model, "predict_proba")`.
On failure the exception propagates and both globals stay unchanged. -/
def load_voice_model (g : VoiceGlobals) (act : Except String VoiceModel) :
    Except String (VoiceModel × VoiceGlobals) :=
  match g.voice_model with
  | some m => .ok (m, g)
  | none =>
    match act with
    | .ok m => .ok (m, ⟨some m, m.hasProba⟩)
    | .error e => .error e

/-- The observable outcome of one lazy-variant request: a success payload, an
`HTTPException` raised by the handler, or an exception that escapes the handler
unwrapped (raised outside the route's `try` block). -/
inductive LazyOutcome (ρ : Type) where
  | response (resp : ρ)
  | httpError (e : HttpError)
  | unhandled (msg : String)
deriving Repr, DecidableEq

namespace MlServer

/-- Embeds `predict_mri` of the lazy variant (`ml-server/app.py` lines 200-248).
`load_mri_model()` runs first, before any validation and outside the `try`
block, so a load failure escapes as `.unhandled` and a successful load updates
the global even when the request is then rejected.  Validation: 400 when the
file is missing, 400 `"Invalid file type: ..."` when the content type is falsy
or its primary type is not `image`.  Inside the `try`: preprocessing, where the
decode `ValueError` is caught by the dedicated handler and becomes a 400
`"Image processing failed: ..."`; then the same clip-and-threshold arithmetic
as the eager variant. -/
def predict_mri (resize : ResizeFn) (act : Except String MriHandle)
    (st : Option MriHandle) (req : MriRequest) :
    Option MriHandle × LazyOutcome MriResponse :=
  match load_mri_model st act with
  | .error e => (st, .unhandled e)
  | .ok (model, st2) =>
    if req.filePresent = false then
      (st2, .httpError ⟨400, "No file uploaded. Use form-data key \x27file\x27"⟩)
    else
      match req.contentType with
      | none =>
        (st2, .httpError ⟨400, "Invalid file type: None. Expected image file (PNG, JPEG, etc.)"⟩)
      | some ct =>
        if ct = "" ∨ primaryType ct ≠ "image" then
          (st2, .httpError ⟨400, "Invalid file type: " ++ ct ++ ". Expected image file (PNG, JPEG, etc.)"⟩)
        else
          match preprocess_mri_from_bytes resize req.decodesTo with
          | .error ve => (st2, .httpError ⟨400, "Image processing failed: " ++ ve⟩)
          | .ok x =>
            let prob := np_clip (model.predictScalar x) 0 1
            let label := if prob > pyHalf then "parkinsons" else "normal"
            (st2, .response ⟨label, prob⟩)

/-- The input-dispatch block of the lazy `predict_voice`
(`ml-server/app.py` lines 271-292); same dispatch as the eager variant but
with its own 400 message for an unusable JSON body. -/
def voicePreprocess : VoiceInput → Except HttpError NDArray
  | .npyFile arr => .ok (preprocess_voice_from_npy_bytes arr)
  | .jsonFeatures fs => .ok (preprocess_voice_from_list fs)
  | .jsonArray fs => .ok (preprocess_voice_from_list fs)
  | .jsonOther =>
    .error ⟨400, "Invalid JSON format. Expected \x7b\x27features\x27: [22 values]\x7d or direct array"⟩

/-- Embeds `predict_voice` of the lazy variant (`ml-server/app.py` lines 251-329):
`load_voice_model()` runs first, outside the `try` block (a load failure
escapes as `.unhandled`); then the same pipeline as the eager variant, with
the feature-count 400 message carrying the extra trailing sentence, and with
the probability branch selected by the global `_voice_has_proba`. -/
def predict_voice (act : Except String VoiceModel) (g : VoiceGlobals)
    (input : VoiceInput) : VoiceGlobals × LazyOutcome VoiceResponse :=
  match load_voice_model g act with
  | .error e => (g, .unhandled e)
  | .ok (model, g2) =>
    match MlServer.voicePreprocess input with
    | .error e => (g2, .httpError e)
    | .ok arr =>
      match arr.shape.get? 1 with
      | none => (g2, .httpError ⟨500, "Voice prediction failed: IndexError"⟩)
      | some w =>
        if w ≠ 22 then
          (g2, .httpError ⟨400, "Expected 22 features, got " ++ toString w ++
            ". Please provide all required voice measurements."⟩)
        else
          let pred := model.predict arr
          let label := (VOICE_LABELS pred).getD (toString pred)
          if g2.voice_has_proba then
            let probs := model.predictProba arr
            match buildProbDict (model.classes_.zip probs) [] with
            | .error e => (g2, .httpError e)
            | .ok probDict =>
              match pyMax probs with
              | none => (g2, .httpError ⟨500, "Voice prediction failed: ValueError"⟩)
              | some confidence => (g2, .response ⟨label, confidence, probDict⟩)
          else
            (g2, .response ⟨label, 1, [(label, 1)]⟩)

end MlServer

/-! ### Interleaving model of the first load (`ml-server/app.py` lines 66-86)

`load_mri_model` has no lock and no `await`: its body is the check
`if mri_model is not None: return mri_model` (lines 69-70) followed by the
external load and the assignment to the global (lines 80-83).  Two semantics of
two concurrent callers are modelled: a fine-grained one in which a scheduler
may interleave the two callers between the check and the load (what a
mutual-exclusion guard would have to rule out), and the coarse one the
single-threaded cooperative scheduler actually provides, where the synchronous
function body runs to completion once entered.  Handles are abstracted to
numeric identities; `hv` is the handle a load produces. -/

/-- Program counter of one caller inside `load_mri_model`'s body. -/
inductive LoadPC where
  | start
  | loading
  | finished (h : ℕ)
deriving Repr, DecidableEq

/-- Shared state of two concurrent callers of `load_mri_model`: the global
`mri_model`, the two callers' program counters, and how many times the
external load has executed. -/
structure LoadConc where
  global : Option ℕ
  pc0 : LoadPC
  pc1 : LoadPC
  loadCount : ℕ
deriving Repr, DecidableEq

/-- The program counter of caller `i`. -/
def pcOf (s : LoadConc) : Bool → LoadPC
  | false => s.pc0
  | true => s.pc1

/-- Replace the program counter of caller `i`. -/
def setPc (s : LoadConc) : Bool → LoadPC → LoadConc
  | false, p => { s with pc0 := p }
  | true, p => { s with pc1 := p }

/-- One fine-grained step of caller `i`: either the `None` check (lines 69-70)
or the load-and-assign (lines 80-83), with a possible interleaving point
between them. -/
def fineStep (hv : ℕ) (s : LoadConc) (i : Bool) : LoadConc :=
  match pcOf s i with
  | .start =>
    match s.global with
    | some h => setPc s i (.finished h)
    | none => setPc s i .loading
  | .loading =>
    let s2 := setPc s i (.finished hv)
    { s2 with global := some hv, loadCount := s2.loadCount + 1 }
  | .finished _ => s

/-- Run a fine-grained schedule (each entry names the caller that steps). -/
def fineRun (hv : ℕ) (sched : List Bool) (s : LoadConc) : LoadConc :=
  sched.foldl (fineStep hv) s

/-- One coarse step: caller `i` runs the whole synchronous `load_mri_model`
body to completion, which is the granularity the cooperative scheduler
provides (the body contains no suspension point). -/
def coarseStep (hv : ℕ) (s : LoadConc) (i : Bool) : LoadConc :=
  match pcOf s i with
  | .start =>
    match s.global with
    | some h => setPc s i (.finished h)
    | none =>
      let s2 := setPc s i (.finished hv)
      { s2 with global := some hv, loadCount := s2.loadCount + 1 }
  | .loading =>
    let s2 := setPc s i (.finished hv)
    { s2 with global := some hv, loadCount := s2.loadCount + 1 }
  | .finished _ => s

/-- Run a coarse schedule. -/
def coarseRun (hv : ℕ) (sched : List Bool) (s : LoadConc) : LoadConc :=
  sched.foldl (coarseStep hv) s

/-- Both callers at the check, model unloaded, no load executed yet. -/
def initLoadConc : LoadConc := ⟨none, .start, .start, 0⟩

/-! ### Helper lemmas -/

/-- The two dispatch functions agree whenever the eager one succeeds
(they differ only in the error message of the catch-all branch). -/
theorem mlVoicePreprocess_ok {inp : VoiceInput} {arr : NDArray}
    (h : voicePreprocess inp = .ok arr) :
    MlServer.voicePreprocess inp = .ok arr := by
  cases inp <;> simp_all [voicePreprocess, MlServer.voicePreprocess]

/-! ### C1 -/

/-- C1: for every MRI request that decodes successfully (eager variant), the
reported confidence is the raw model scalar clipped into [0, 1], the label is
`"parkinsons"` exactly when the clipped value exceeds 1/2 and `"normal"`
otherwise, and a `"normal"` response still carries the clipped scalar itself
as its confidence (never `1 -` it). -/
theorem C1_mri_clip_threshold_confidence
    (resize : ResizeFn) (f : Tensor4 → ℚ) (req : MriRequest) (ct : String)
    (img : DecodedImage)
    (hf : req.filePresent = true) (hct : req.contentType = some ct)
    (hemp : ct ≠ "") (him : primaryType ct = "image")
    (hdec : req.decodesTo = some img) :
    ∃ r : MriResponse, predict_mri resize f req = .ok r ∧
      r.confidence = np_clip (f (mriTensor resize img)) 0 1 ∧
      0 ≤ r.confidence ∧ r.confidence ≤ 1 ∧
      (r.prediction = "parkinsons" ↔ 1 / 2 < r.confidence) ∧
      (r.prediction = "normal" ↔ r.confidence ≤ 1 / 2) := by
  set q : ℚ := np_clip (f (mriTensor resize img)) 0 1 with hq
  refine ⟨⟨if q > pyHalf then "parkinsons" else "normal", q⟩, ?_, rfl, ?_, ?_, ?_, ?_⟩
  · simp only [predict_mri, hf, hct, preprocess_mri_from_bytes, hdec]
    rw [if_neg (by simp), if_neg hemp, if_neg (by simp [him])]
  · exact le_min (by norm_num) (le_max_left 0 _)
  · exact min_le_left 1 _
  · rw [pyHalf_eq]
    split_ifs with h
    · exact ⟨fun _ => h, fun _ => rfl⟩
    · exact ⟨fun hc => absurd hc (show ¬("normal" : String) = "parkinsons" by decide),
        fun hc => absurd hc h⟩
  · rw [pyHalf_eq]
    split_ifs with h
    · exact ⟨fun hc => absurd hc (show ¬("parkinsons" : String) = "normal" by decide),
        fun hc => absurd h (not_lt.mpr hc)⟩
    · exact ⟨fun _ => not_lt.mp h, fun _ => rfl⟩

/-- C1 witness: a raw model output of 2 (outside [0, 1]) on a concrete
one-pixel image with image content type is clipped to confidence 1 and
labelled `"parkinsons"`. -/
theorem C1_mri_clip_threshold_confidence_witness :
    ∃ r : MriResponse,
      predict_mri (fun _ _ _ _ _ _ => 0) (fun _ => 2)
          ⟨true, some "image/png", some ⟨1, 1, fun _ _ _ => 0⟩⟩ = .ok r ∧
      r.confidence = np_clip 2 0 1 ∧
      0 ≤ r.confidence ∧ r.confidence ≤ 1 ∧
      (r.prediction = "parkinsons" ↔ 1 / 2 < r.confidence) ∧
      (r.prediction = "normal" ↔ r.confidence ≤ 1 / 2) :=
  C1_mri_clip_threshold_confidence (fun _ _ _ _ _ _ => 0) (fun _ => 2)
    ⟨true, some "image/png", some ⟨1, 1, fun _ _ _ => 0⟩⟩ "image/png"
    ⟨1, 1, fun _ _ _ => 0⟩ rfl rfl (by decide) (by decide) rfl

/-! ### C2 -/

/-- C2: in both variants, a voice request whose preprocessed array has width
`w ≠ 22` fails with status 400 and a message stating the expected count 22 and
the actual count `w`; the eager variant's message is exactly
`"Expected 22 features, got w"`, the lazy variant appends one extra sentence. -/
theorem C2_feature_count_mismatch_400
    (m : VoiceModel) (act : Except String VoiceModel)
    (g : VoiceGlobals) (m2 : VoiceModel) (g2 : VoiceGlobals)
    (inp : VoiceInput) (arr : NDArray) (w : ℕ)
    (hpre : voicePreprocess inp = .ok arr)
    (hw : arr.shape.get? 1 = some w) (hne : w ≠ 22)
    (hload : load_voice_model g act = .ok (m2, g2)) :
    predict_voice m inp = .error ⟨400, "Expected 22 features, got " ++ toString w⟩ ∧
    MlServer.predict_voice act g inp =
      (g2, .httpError ⟨400, "Expected 22 features, got " ++ toString w ++
        ". Please provide all required voice measurements."⟩) := by
  constructor
  · simp only [predict_voice, hpre, hw]
    rw [if_pos hne]
  · simp only [MlServer.predict_voice, hload, mlVoicePreprocess_ok hpre, hw]
    rw [if_pos hne]

/-- C2 witness: a JSON body with 21 features yields 400 and the exact message
`"Expected 22 features, got 21"` in the eager variant (with the lazy variant's
trailing sentence appended in the lazy one). -/
theorem C2_feature_count_mismatch_400_witness :
    predict_voice ⟨fun _ => 0, false, [], fun _ => []⟩
        (.jsonFeatures (List.replicate 21 0)) =
      .error ⟨400, "Expected 22 features, got 21"⟩ ∧
    MlServer.predict_voice (.ok ⟨fun _ => 0, false, [], fun _ => []⟩)
        ⟨none, false⟩ (.jsonFeatures (List.replicate 21 0)) =
      (⟨some ⟨fun _ => 0, false, [], fun _ => []⟩, false⟩,
       .httpError ⟨400,
         "Expected 22 features, got 21. Please provide all required voice measurements."⟩) :=
  C2_feature_count_mismatch_400 ⟨fun _ => 0, false, [], fun _ => []⟩
    (.ok ⟨fun _ => 0, false, [], fun _ => []⟩) ⟨none, false⟩
    ⟨fun _ => 0, false, [], fun _ => []⟩
    ⟨some ⟨fun _ => 0, false, [], fun _ => []⟩, false⟩
    (.jsonFeatures (List.replicate 21 0)) ⟨[1, 21], List.replicate 21 0⟩ 21
    rfl rfl (by decide) rfl

/-! ### C4 -/

/-- C4: in binary array mode, a 1-dimensional array of length N reshapes to
(1, N) with the element order unchanged, and a 2-dimensional array whose first
axis is not 1 is flattened to (1, N) rather than rejected. -/
theorem C4_npy_reshape_policy :
    (∀ (n : ℕ) (data : List ℚ), data.length = n →
      preprocess_voice_from_npy_bytes ⟨[n], data⟩ = ⟨[1, n], data⟩) ∧
    (∀ (a b : ℕ) (data : List ℚ), a ≠ 1 → data.length = a * b →
      preprocess_voice_from_npy_bytes ⟨[a, b], data⟩ = ⟨[1, a * b], data⟩) := by
  constructor
  · intro n data hlen
    simp [preprocess_voice_from_npy_bytes, reshape1xN, hlen]
  · intro a b data ha hlen
    simp [preprocess_voice_from_npy_bytes, reshape1xN, ha, hlen]

/-- C4 witness: a length-22 vector becomes (1, 22) with identical elements,
and a (2, 3) array is flattened to (1, 6) in order. -/
theorem C4_npy_reshape_policy_witness :
    preprocess_voice_from_npy_bytes ⟨[22], List.replicate 22 0⟩ =
      ⟨[1, 22], List.replicate 22 0⟩ ∧
    preprocess_voice_from_npy_bytes ⟨[2, 3], [1, 2, 3, 4, 5, 6]⟩ =
      ⟨[1, 6], [1, 2, 3, 4, 5, 6]⟩ :=
  ⟨C4_npy_reshape_policy.1 22 (List.replicate 22 0) (by decide),
   C4_npy_reshape_policy.2 2 3 [1, 2, 3, 4, 5, 6] (by decide) (by decide)⟩

/-! ### C3 -/

/-- C3: for every byte stream the codec decodes, the image preprocessor
returns a tensor of shape (1, 128, 128, 3) and dtype float32 whose pixel
values are exactly the bilinear resize of the BGR→RGB-converted decode —
no scaling or normalization is applied (and the channel conversion reads
red from BGR channel 2, green from 1, blue from 0). -/
theorem C3_mri_preprocess_shape_values (resize : ResizeFn) (img : DecodedImage) :
    ∃ t : Tensor4, preprocess_mri_from_bytes resize (some img) = .ok t ∧
      t.dtype = .float32 ∧ t.shape = (1, 128, 128, 3) ∧
      (∀ b i j c, t.val b i j c = resize img.h img.w (cvtColor_BGR2RGB img.px) i j c) ∧
      (∀ (i : Fin img.h) (j : Fin img.w),
        cvtColor_BGR2RGB img.px i j 0 = img.px i j 2 ∧
        cvtColor_BGR2RGB img.px i j 1 = img.px i j 1 ∧
        cvtColor_BGR2RGB img.px i j 2 = img.px i j 0) :=
  ⟨mriTensor resize img, rfl, rfl, rfl, fun _ _ _ _ => rfl,
    fun _ _ => ⟨rfl, rfl, rfl⟩⟩

/-! ### C6 -/

/-- C6 counterexample: in the eager variant (`app.py`), posting undecodable
bytes with an image content type yields status 500, not the claimed 400: the
`ValueError("Invalid image")` is caught by the blanket `except Exception`
handler of `predict_mri`. -/
theorem C6_invalid_image_counterexample :
    predict_mri (fun _ _ _ _ _ _ => 0) (fun _ => 0)
        ⟨true, some "image/png", none⟩ =
      .error ⟨500, "MRI prediction failed: Invalid image"⟩ ∧
    (500 : ℕ) ≠ 400 :=
  ⟨rfl, by decide⟩

/-- C6 amended: an undecodable image with image content type fails with 400
`"Image processing failed: Invalid image"` only in the lazy variant
(`ml-server/app.py`), whose route catches `ValueError` separately; in the
eager variant (`app.py`) the same request fails with 500
`"MRI prediction failed: Invalid image"`. -/
theorem C6_invalid_image_amended
    (resize : ResizeFn) (f : Tensor4 → ℚ) (req : MriRequest) (ct : String)
    (hf : req.filePresent = true) (hct : req.contentType = some ct)
    (hemp : ct ≠ "") (him : primaryType ct = "image")
    (hdec : req.decodesTo = none) :
    predict_mri resize f req = .error ⟨500, "MRI prediction failed: Invalid image"⟩ ∧
    ∀ (h : MriHandle) (st : Option MriHandle),
      (MlServer.predict_mri resize (.ok h) st req).2 =
        .httpError ⟨400, "Image processing failed: Invalid image"⟩ := by
  constructor
  · simp only [predict_mri, hf, hct, preprocess_mri_from_bytes, hdec]
    rw [if_neg (by simp), if_neg hemp, if_neg (by simp [him])]
    rfl
  · intro h st
    cases st <;>
      simp only [MlServer.predict_mri, load_voice_model, load_mri_model, hf, hct,
        preprocess_mri_from_bytes, hdec] <;>
      rw [if_neg (by simp), if_neg (by simp [hemp, him])] <;>
      rfl

/-- C6 witness (for the amended claim): concrete undecodable upload with
content type `image/png`: 500 in the eager variant, 400 in the lazy one. -/
theorem C6_invalid_image_amended_witness :
    predict_mri (fun _ _ _ _ _ _ => 0) (fun _ => 0) ⟨true, some "image/png", none⟩ =
      .error ⟨500, "MRI prediction failed: Invalid image"⟩ ∧
    (MlServer.predict_mri (fun _ _ _ _ _ _ => 0) (.ok ⟨fun _ => 0⟩) none
        ⟨true, some "image/png", none⟩).2 =
      .httpError ⟨400, "Image processing failed: Invalid image"⟩ :=
  ⟨(C6_invalid_image_amended (fun _ _ _ _ _ _ => 0) (fun _ => 0)
      ⟨true, some "image/png", none⟩ "image/png" rfl rfl (by decide) (by decide) rfl).1,
   (C6_invalid_image_amended (fun _ _ _ _ _ _ => 0) (fun _ => 0)
      ⟨true, some "image/png", none⟩ "image/png" rfl rfl (by decide) (by decide) rfl).2
     ⟨fun _ => 0⟩ none⟩

/-! ### C7 -/

/-- C7: once a load function has returned a handle, every later call is
side-effect-free and returns that same cached handle — calling it again, with
any outcome of the external load action, yields the identical handle and
leaves the registry state unchanged (for both the MRI and the voice loader). -/
theorem C7_load_idempotent :
    (∀ (st : Option MriHandle) (act : Except String MriHandle)
        (h : MriHandle) (st2 : Option MriHandle),
      load_mri_model st act = .ok (h, st2) →
      ∀ act2, load_mri_model st2 act2 = .ok (h, st2)) ∧
    (∀ (g : VoiceGlobals) (act : Except String VoiceModel)
        (m : VoiceModel) (g2 : VoiceGlobals),
      load_voice_model g act = .ok (m, g2) →
      ∀ act2, load_voice_model g2 act2 = .ok (m, g2)) := by
  constructor
  · intro st act h st2 hld act2
    cases st with
    | some m0 =>
      simp only [load_mri_model, Except.ok.injEq, Prod.mk.injEq] at hld
      obtain ⟨rfl, rfl⟩ := hld
      rfl
    | none =>
      cases act with
      | ok m0 =>
        simp only [load_mri_model, Except.ok.injEq, Prod.mk.injEq] at hld
        obtain ⟨rfl, rfl⟩ := hld
        rfl
      | error e => simp [load_mri_model] at hld
  · intro g act m g2 hld act2
    cases hg : g.voice_model with
    | some m0 =>
      simp only [load_voice_model, hg, Except.ok.injEq, Prod.mk.injEq] at hld
      obtain ⟨rfl, rfl⟩ := hld
      simp [load_voice_model, hg]
    | none =>
      cases act with
      | ok m0 =>
        simp only [load_voice_model, hg, Except.ok.injEq, Prod.mk.injEq] at hld
        obtain ⟨rfl, rfl⟩ := hld
        simp [load_voice_model]
      | error e => simp [load_voice_model, hg] at hld

/-- C7 witness: with concrete loaded registries, a second call whose load
action would fail still returns the cached handles and leaves both states
unchanged. -/
theorem C7_load_idempotent_witness :
    load_mri_model (some ⟨fun _ => 0⟩) (.error "boom") =
      .ok (⟨fun _ => 0⟩, some ⟨fun _ => 0⟩) ∧
    load_voice_model ⟨some ⟨fun _ => 0, false, [], fun _ => []⟩, false⟩ (.error "boom") =
      .ok (⟨fun _ => 0, false, [], fun _ => []⟩,
           ⟨some ⟨fun _ => 0, false, [], fun _ => []⟩, false⟩) :=
  ⟨C7_load_idempotent.1 none (.ok ⟨fun _ => 0⟩) ⟨fun _ => 0⟩
      (some ⟨fun _ => 0⟩) rfl (.error "boom"),
   C7_load_idempotent.2 ⟨none, false⟩ (.ok ⟨fun _ => 0, false, [], fun _ => []⟩)
      ⟨fun _ => 0, false, [], fun _ => []⟩
      ⟨some ⟨fun _ => 0, false, [], fun _ => []⟩, false⟩ rfl (.error "boom")⟩

/-! ### C9 -/

/-- C9: in the lazy variant, `load_mri_model()` runs before the file and
content-type validation and outside the `try` block: a request that is then
rejected with 400 still flips the registry from unloaded to loaded when the
load succeeds, and a failing load escapes the handler unwrapped (`.unhandled`)
instead of becoming an HTTP error. -/
theorem C9_mri_load_precedes_validation
    (resize : ResizeFn) (act : Except String MriHandle) (req : MriRequest)
    (hbad : req.filePresent = false ∨ req.contentType = none ∨
      ∃ ct, req.contentType = some ct ∧ (ct = "" ∨ primaryType ct ≠ "image")) :
    (∀ h, act = .ok h →
      ∃ e : HttpError, e.status = 400 ∧
        MlServer.predict_mri resize act none req = (some h, .httpError e)) ∧
    (∀ e, act = .error e →
      MlServer.predict_mri resize act none req = (none, .unhandled e)) := by
  constructor
  · rintro h rfl
    cases hfp : req.filePresent with
    | false =>
      exact ⟨⟨400, "No file uploaded. Use form-data key \x27file\x27"⟩, rfl,
        by simp [MlServer.predict_mri, load_mri_model, hfp]⟩
    | true =>
      rcases hbad with hb | hb | ⟨ct, hct, hb⟩
      · rw [hfp] at hb
        exact absurd hb (by decide)
      · exact ⟨⟨400, "Invalid file type: None. Expected image file (PNG, JPEG, etc.)"⟩,
          rfl, by simp [MlServer.predict_mri, load_mri_model, hfp, hb]⟩
      · refine ⟨⟨400, "Invalid file type: " ++ ct ++
          ". Expected image file (PNG, JPEG, etc.)"⟩, rfl, ?_⟩
        simp only [MlServer.predict_mri, load_mri_model, hfp, hct]
        rw [if_neg (by simp), if_pos hb]
  · rintro e rfl
    simp [MlServer.predict_mri, load_mri_model]

/-- C9 witness: a request with content type `text/plain` against an unloaded
registry: a successful load leaves the model cached next to the 400 response,
while a failing load escapes unwrapped. -/
theorem C9_mri_load_precedes_validation_witness :
    (∃ e : HttpError, e.status = 400 ∧
      MlServer.predict_mri (fun _ _ _ _ _ _ => 0) (.ok ⟨fun _ => 0⟩) none
          ⟨true, some "text/plain", none⟩ =
        (some ⟨fun _ => 0⟩, .httpError e)) ∧
    MlServer.predict_mri (fun _ _ _ _ _ _ => 0) (.error "boom") none
        ⟨true, some "text/plain", none⟩ = (none, .unhandled "boom") :=
  ⟨(C9_mri_load_precedes_validation (fun _ _ _ _ _ _ => 0) (.ok ⟨fun _ => 0⟩)
      ⟨true, some "text/plain", none⟩
      (Or.inr (Or.inr ⟨"text/plain", rfl, Or.inr (by decide)⟩))).1 ⟨fun _ => 0⟩ rfl,
   (C9_mri_load_precedes_validation (fun _ _ _ _ _ _ => 0) (.error "boom")
      ⟨true, some "text/plain", none⟩
      (Or.inr (Or.inr ⟨"text/plain", rfl, Or.inr (by decide)⟩))).2 "boom" rfl⟩

/-! ### C8 -/

/-- C8 counterexample: the claimed mutual-exclusion guard does not exist in
the code.  In the fine-grained interleaving (which a guard would have to make
safe) the explicit schedule caller0-check, caller1-check, caller0-load,
caller1-load makes **two** loads execute from the initial unloaded state, not
at most one. -/
theorem C8_no_guard_counterexample :
    (fineRun 7 [false, true, false, true] initLoadConc).loadCount = 2 ∧
    ¬ (fineRun 7 [false, true, false, true] initLoadConc).loadCount ≤ 1 := by
  decide

/-- Invariant of the coarse (cooperative-scheduler) semantics: the global only
ever holds the loaded handle, at most one load has executed, none before the
global is set, every finished caller got that handle, and no caller is parked
between the check and the load. -/
def LoadInv (hv : ℕ) (s : LoadConc) : Prop :=
  (s.global = none ∨ s.global = some hv) ∧
  s.loadCount ≤ 1 ∧
  (s.global = none → s.loadCount = 0) ∧
  (∀ h, (s.pc0 = .finished h ∨ s.pc1 = .finished h) → h = hv) ∧
  s.pc0 ≠ .loading ∧ s.pc1 ≠ .loading

theorem loadInv_init (hv : ℕ) : LoadInv hv initLoadConc := by
  refine ⟨Or.inl rfl, by decide, fun _ => rfl, ?_, by decide, by decide⟩
  rintro h (hh | hh) <;> exact absurd hh (by simp [initLoadConc])

theorem loadInv_coarseStep (hv : ℕ) (s : LoadConc) (i : Bool)
    (hs : LoadInv hv s) : LoadInv hv (coarseStep hv s i) := by
  obtain ⟨hg, hc, hgc, hfin, hl0, hl1⟩ := hs
  have hhv : ∀ h0, s.global = some h0 → h0 = hv := by
    intro h0 hgl
    rcases hg with hg | hg
    · rw [hgl] at hg
      exact absurd hg (by simp)
    · rw [hgl] at hg
      injection hg with hg0
  cases i with
  | false =>
    cases hp : s.pc0 with
    | loading => exact absurd hp hl0
    | finished h =>
      simp only [coarseStep, pcOf, hp]
      exact ⟨hg, hc, hgc, hfin, hl0, hl1⟩
    | start =>
      simp only [coarseStep, pcOf, hp]
      cases hgl : s.global with
      | some h0 =>
        have hh0 : h0 = hv := hhv h0 hgl
        subst hh0
        simp only [setPc]
        refine ⟨Or.inr hgl, hc, fun hn => absurd hgl (by rw [hn]; simp), ?_, by simp, hl1⟩
        rintro h (hh | hh)
        · simp only [LoadPC.finished.injEq] at hh
          exact hh.symm
        · exact hfin h (Or.inr hh)
      | none =>
        have hc0 : s.loadCount = 0 := hgc hgl
        simp only [setPc]
        refine ⟨Or.inr rfl, show s.loadCount + 1 ≤ 1 by omega, by simp, ?_, by simp, hl1⟩
        rintro h (hh | hh)
        · simp only [LoadPC.finished.injEq] at hh
          exact hh.symm
        · exact hfin h (Or.inr hh)
  | true =>
    cases hp : s.pc1 with
    | loading => exact absurd hp hl1
    | finished h =>
      simp only [coarseStep, pcOf, hp]
      exact ⟨hg, hc, hgc, hfin, hl0, hl1⟩
    | start =>
      simp only [coarseStep, pcOf, hp]
      cases hgl : s.global with
      | some h0 =>
        have hh0 : h0 = hv := hhv h0 hgl
        subst hh0
        simp only [setPc]
        refine ⟨Or.inr hgl, hc, fun hn => absurd hgl (by rw [hn]; simp), ?_, hl0, by simp⟩
        rintro h (hh | hh)
        · exact hfin h (Or.inl hh)
        · simp only [LoadPC.finished.injEq] at hh
          exact hh.symm
      | none =>
        have hc0 : s.loadCount = 0 := hgc hgl
        simp only [setPc]
        refine ⟨Or.inr rfl, show s.loadCount + 1 ≤ 1 by omega, by simp, ?_, hl0, by simp⟩
        rintro h (hh | hh)
        · exact hfin h (Or.inl hh)
        · simp only [LoadPC.finished.injEq] at hh
          exact hh.symm

/-- Run preservation of the invariant over a coarse schedule. -/
theorem loadInv_coarseRun (hv : ℕ) (sched : List Bool) (s : LoadConc)
    (hs : LoadInv hv s) : LoadInv hv (coarseRun hv sched s) := by
  induction sched generalizing s with
  | nil => exact hs
  | cons i rest ih => exact ih _ (loadInv_coarseStep hv s i hs)

/-- C8 amended: no mutual-exclusion guard serializes the first loads (see the
counterexample); instead, because `load_mri_model` contains no suspension
point, the cooperative scheduler runs each call atomically, and under that
coarse semantics every schedule of two concurrent callers from the unloaded
state executes at most one load, and every caller that finishes holds the one
loaded handle. -/
theorem C8_coarse_single_load (hv : ℕ) (sched : List Bool) :
    (coarseRun hv sched initLoadConc).loadCount ≤ 1 ∧
    (∀ h, ((coarseRun hv sched initLoadConc).pc0 = .finished h ∨
           (coarseRun hv sched initLoadConc).pc1 = .finished h) → h = hv) := by
  have h := loadInv_coarseRun hv sched initLoadConc (loadInv_init hv)
  exact ⟨h.2.1, h.2.2.2.1⟩

/-- C8 witness: the schedule caller0-then-caller1 from the unloaded state
executes exactly one load and both callers finish with that handle. -/
theorem C8_coarse_single_load_witness :
    (coarseRun 7 [false, true] initLoadConc).loadCount ≤ 1 ∧
    (coarseRun 7 [false, true] initLoadConc).pc0 = .finished 7 ∧
    (coarseRun 7 [false, true] initLoadConc).pc1 = .finished 7 :=
  ⟨(C8_coarse_single_load 7 [false, true]).1, by decide, by decide⟩

/-! ### C5 helper lemmas -/

theorem foldlMax_le (xs : List ℚ) (x : ℚ) : x ≤ xs.foldl max x := by
  induction xs generalizing x with
  | nil => exact le_refl x
  | cons y ys ih => exact le_trans (le_max_left x y) (ih (max x y))

theorem foldlMax_mem_le (xs : List ℚ) : ∀ x a : ℚ, a ∈ xs → a ≤ xs.foldl max x := by
  induction xs with
  | nil =>
    intro x a ha
    cases ha
  | cons y ys ih =>
    intro x a ha
    rcases List.mem_cons.mp ha with rfl | h
    · exact le_trans (le_max_right x a) (foldlMax_le ys (max x a))
    · exact ih (max x y) a h

theorem foldlMax_mem (xs : List ℚ) : ∀ x : ℚ, xs.foldl max x ∈ x :: xs := by
  induction xs with
  | nil =>
    intro x
    exact List.mem_singleton.mpr rfl
  | cons y ys ih =>
    intro x
    have hstep : List.foldl max x (y :: ys) = List.foldl max (max x y) ys := rfl
    rcases List.mem_cons.mp (ih (max x y)) with h | h
    · rcases max_choice x y with hm | hm
      · rw [hstep, h, hm]
        exact List.mem_cons_self x (y :: ys)
      · rw [hstep, h, hm]
        exact List.mem_cons.mpr (Or.inr (List.mem_cons_self y ys))
    · exact List.mem_cons.mpr (Or.inr (List.mem_cons.mpr (Or.inr h)))

/-- Python's `max` on a nonempty list returns an element that bounds every
element. -/
theorem pyMax_spec (l : List ℚ) (hl : l ≠ []) :
    ∃ m, pyMax l = some m ∧ m ∈ l ∧ ∀ a ∈ l, a ≤ m := by
  cases l with
  | nil => exact absurd rfl hl
  | cons x xs =>
    refine ⟨xs.foldl max x, rfl, foldlMax_mem xs x, ?_⟩
    intro a ha
    rcases List.mem_cons.mp ha with rfl | h
    · exact foldlMax_le xs a
    · exact foldlMax_mem_le xs x a h

/-- When every class id is 0 or 1, every produced key is fresh for the
accumulator, and the produced keys are distinct, the dict-building loop
succeeds and appends one entry per pair in order. -/
theorem buildProbDict_fresh (pairs : List (ℤ × ℚ)) (d : List (String × ℚ))
    (hcls : ∀ p ∈ pairs, p.1 = 0 ∨ p.1 = 1)
    (hfresh : ∀ p ∈ pairs, ∀ q ∈ d, q.1 ≠ (VOICE_LABELS p.1).getD "")
    (hnd : (pairs.map (fun p => (VOICE_LABELS p.1).getD "")).Nodup) :
    buildProbDict pairs d =
      .ok (d ++ pairs.map (fun p => ((VOICE_LABELS p.1).getD "", p.2))) := by
  induction pairs generalizing d with
  | nil => simp [buildProbDict]
  | cons cv rest ih =>
    obtain ⟨c, v⟩ := cv
    obtain ⟨lbl, hlbl⟩ : ∃ lbl, VOICE_LABELS c = some lbl := by
      rcases hcls (c, v) (List.mem_cons_self _ _) with hc | hc
      · exact ⟨"healthy", by simp [VOICE_LABELS, show c = 0 from hc]⟩
      · exact ⟨"parkinsons", by simp [VOICE_LABELS, show c = 1 from hc]⟩
    have hheadlbl : ((VOICE_LABELS ((c, v) : ℤ × ℚ).1).getD "") = lbl := by
      rw [show ((c, v) : ℤ × ℚ).1 = c from rfl, hlbl]
      rfl
    have hnd' : (((VOICE_LABELS ((c, v) : ℤ × ℚ).1).getD "") ::
        rest.map (fun p => (VOICE_LABELS p.1).getD "")).Nodup := hnd
    rw [hheadlbl] at hnd'
    obtain ⟨hnotin, hndrest⟩ := List.nodup_cons.mp hnd'
    have hany : d.any (fun p => p.1 = lbl) = false := by
      rw [List.any_eq_false]
      intro q hq
      have := hfresh (c, v) (List.mem_cons_self _ _) q hq
      rw [hheadlbl] at this
      simpa using this
    have hins : dictInsert d lbl v = d ++ [(lbl, v)] := by
      rw [dictInsert, hany]
      simp
    simp only [buildProbDict, hlbl, hins]
    rw [ih (d ++ [(lbl, v)])]
    · simp [hheadlbl, List.append_assoc]
    · exact fun p hp => hcls p (List.mem_cons_of_mem _ hp)
    · intro p hp q hq
      rcases List.mem_append.mp hq with hq | hq
      · exact hfresh p (List.mem_cons_of_mem _ hp) q hq
      · have hql : q.1 = lbl := by
          rcases List.mem_singleton.mp hq with rfl
          rfl
        rw [hql]
        intro hcontra
        have hmem : (VOICE_LABELS p.1).getD "" ∈
            rest.map (fun p => (VOICE_LABELS p.1).getD "") :=
          List.mem_map.mpr ⟨p, hp, rfl⟩
        exact hnotin (hcontra ▸ hmem)
    · exact hndrest

/-! ### C5 -/

/-- C5: for a successful voice prediction, when the model supports probability
estimation the probability mapping has exactly one key per class in
`classes_`, each mapped through the label dictionary, its values are exactly
the probability row, and the confidence is the maximum of that row; when it
does not, the mapping assigns 1.0 to the predicted label only and the
confidence is 1.0. -/
theorem C5_voice_probability_distribution (m : VoiceModel) (fs : List ℚ)
    (hlen : fs.length = 22)
    (hcls : ∀ c ∈ m.classes_, c = 0 ∨ c = 1)
    (hnd : m.classes_.Nodup)
    (hplen : (m.predictProba (preprocess_voice_from_list fs)).length =
      m.classes_.length)
    (hcne : m.classes_ ≠ []) :
    (m.hasProba = true →
      ∃ r, predict_voice m (.jsonFeatures fs) = .ok r ∧
        r.probability.map Prod.fst =
          m.classes_.map (fun c => (VOICE_LABELS c).getD "") ∧
        r.probability.map Prod.snd =
          m.predictProba (preprocess_voice_from_list fs) ∧
        r.confidence ∈ m.predictProba (preprocess_voice_from_list fs) ∧
        ∀ p ∈ m.predictProba (preprocess_voice_from_list fs),
          p ≤ r.confidence) ∧
    (m.hasProba = false →
      ∃ r, predict_voice m (.jsonFeatures fs) = .ok r ∧
        r.probability = [(r.prediction, 1)] ∧ r.confidence = 1) := by
  set arr : NDArray := preprocess_voice_from_list fs with harr
  set probs : List ℚ := m.predictProba arr with hprobs
  have hshape : arr.shape.get? 1 = some fs.length := rfl
  constructor
  · intro hp
    set pairs : List (ℤ × ℚ) := m.classes_.zip probs with hpairs
    have hfstz : pairs.map Prod.fst = m.classes_ :=
      List.map_fst_zip m.classes_ probs (le_of_eq hplen.symm)
    have hsndz : pairs.map Prod.snd = probs :=
      List.map_snd_zip m.classes_ probs (le_of_eq hplen)
    have hmapkeys : pairs.map (fun q => (VOICE_LABELS q.1).getD "") =
        m.classes_.map (fun c => (VOICE_LABELS c).getD "") := by
      rw [← hfstz, List.map_map]
      rfl
    have hpcls : ∀ q ∈ pairs, q.1 = 0 ∨ q.1 = 1 := by
      rintro ⟨c, v⟩ hq
      exact hcls c (List.of_mem_zip hq).1
    have hlblnd : (pairs.map (fun q => (VOICE_LABELS q.1).getD "")).Nodup := by
      rw [hmapkeys]
      refine List.Nodup.map_on ?_ hnd
      intro c1 hc1 c2 hc2 heq
      rcases hcls c1 hc1 with rfl | rfl <;> rcases hcls c2 hc2 with rfl | rfl <;>
        first
        | rfl
        | (exact absurd heq (by decide))
    have hbuild : buildProbDict pairs [] =
        .ok (pairs.map (fun q => ((VOICE_LABELS q.1).getD "", q.2))) := by
      have := buildProbDict_fresh pairs [] hpcls (by simp) hlblnd
      simpa using this
    have hpne : probs ≠ [] := by
      intro hcontra
      apply hcne
      have := hplen
      rw [hcontra] at this
      exact List.eq_nil_of_length_eq_zero this.symm
    obtain ⟨conf, hconf, hconfmem, hconfle⟩ := pyMax_spec probs hpne
    refine ⟨⟨(VOICE_LABELS (m.predict arr)).getD (toString (m.predict arr)), conf,
      pairs.map (fun q => ((VOICE_LABELS q.1).getD "", q.2))⟩, ?_, ?_, ?_,
      hconfmem, hconfle⟩
    · simp only [predict_voice, voicePreprocess, hshape, hlen]
      rw [if_neg (by decide), if_pos hp, ← hprobs, ← hpairs, hbuild, hconf]
    · rw [List.map_map]
      exact hmapkeys
    · rw [List.map_map]
      have : (fun q : ℤ × ℚ => (((VOICE_LABELS q.1).getD "", q.2) : String × ℚ).2) =
          Prod.snd := rfl
      rw [show (Prod.snd ∘ fun q : ℤ × ℚ => (((VOICE_LABELS q.1).getD "", q.2) : String × ℚ)) =
          (Prod.snd : ℤ × ℚ → ℚ) from rfl]
      exact hsndz
  · intro hp
    refine ⟨⟨(VOICE_LABELS (m.predict arr)).getD (toString (m.predict arr)), 1,
      [((VOICE_LABELS (m.predict arr)).getD (toString (m.predict arr)), 1)]⟩,
      ?_, rfl, rfl⟩
    simp only [predict_voice, voicePreprocess, hshape, hlen]
    rw [if_neg (by decide), if_neg (by simp [hp])]

/-- C5 witness: a probability-capable model with classes `[0, 1]` and row
`[0, 1]` yields the keys `healthy`, `parkinsons` in class order, the values
`[0, 1]`, and confidence 1 = the maximum; the same model with
`hasProba = false` yields the degenerate distribution. -/
theorem C5_voice_probability_distribution_witness :
    (∃ r, predict_voice ⟨fun _ => 1, true, [0, 1], fun _ => [0, 1]⟩
        (.jsonFeatures (List.replicate 22 0)) = .ok r ∧
      r.probability.map Prod.fst =
        ([0, 1] : List ℤ).map (fun c => (VOICE_LABELS c).getD "") ∧
      r.probability.map Prod.snd = [0, 1] ∧
      r.confidence ∈ ([0, 1] : List ℚ) ∧
      ∀ p ∈ ([0, 1] : List ℚ), p ≤ r.confidence) ∧
    (∃ r, predict_voice ⟨fun _ => 1, false, [0, 1], fun _ => [0, 1]⟩
        (.jsonFeatures (List.replicate 22 0)) = .ok r ∧
      r.probability = [(r.prediction, 1)] ∧ r.confidence = 1) :=
  ⟨(C5_voice_probability_distribution ⟨fun _ => 1, true, [0, 1], fun _ => [0, 1]⟩
      (List.replicate 22 0) (by decide) (by decide) (by decide) (by decide)
      (by decide)).1 rfl,
   (C5_voice_probability_distribution ⟨fun _ => 1, false, [0, 1], fun _ => [0, 1]⟩
      (List.replicate 22 0) (by decide) (by decide) (by decide) (by decide)
      (by decide)).2 rfl⟩

/-! ### C10 -/

/-- C10: for a voice prediction whose predicted class id is outside {0, 1},
the response's prediction field is the decimal string of that id — the label
lookup `VOICE_LABELS.get(pred, str(pred))` falls back to `str(pred)` — and it
is one of the declared labels only when the id is 0 or 1. -/
theorem C10_label_fallback_str (m : VoiceModel) (fs : List ℚ)
    (hlen : fs.length = 22) (hnp : m.hasProba = false) :
    ∃ r, predict_voice m (.jsonFeatures fs) = .ok r ∧
      r.prediction =
        (if m.predict (preprocess_voice_from_list fs) = 0 then "healthy"
         else if m.predict (preprocess_voice_from_list fs) = 1 then "parkinsons"
         else toString (m.predict (preprocess_voice_from_list fs))) ∧
      (m.predict (preprocess_voice_from_list fs) ≠ 0 →
        m.predict (preprocess_voice_from_list fs) ≠ 1 →
        r.prediction = toString (m.predict (preprocess_voice_from_list fs))) := by
  set arr : NDArray := preprocess_voice_from_list fs with harr
  have hshape : arr.shape.get? 1 = some fs.length := rfl
  refine ⟨⟨(VOICE_LABELS (m.predict arr)).getD (toString (m.predict arr)), 1,
    [((VOICE_LABELS (m.predict arr)).getD (toString (m.predict arr)), 1)]⟩,
    ?_, ?_, ?_⟩
  · simp only [predict_voice, voicePreprocess, hshape, hlen]
    rw [if_neg (by decide), if_neg (by simp [hnp])]
  · simp only [VOICE_LABELS]
    split_ifs <;> rfl
  · intro h0 h1
    simp only [VOICE_LABELS, if_neg h0, if_neg h1, Option.getD_none]

/-- C10 witness: a model predicting class id 7 yields the prediction string
`"7"`, which is neither `"healthy"` nor `"parkinsons"`. -/
theorem C10_label_fallback_str_witness :
    ∃ r, predict_voice ⟨fun _ => 7, false, [], fun _ => []⟩
        (.jsonFeatures (List.replicate 22 0)) = .ok r ∧
      r.prediction = "7" ∧ r.prediction ≠ "healthy" ∧ r.prediction ≠ "parkinsons" := by
  obtain ⟨r, hr, _, hfall⟩ :=
    C10_label_fallback_str ⟨fun _ => 7, false, [], fun _ => []⟩
      (List.replicate 22 0) (by decide) rfl
  have h7 : r.prediction = "7" := by
    have := hfall (by decide) (by decide)
    simpa using this
  exact ⟨r, hr, h7, by rw [h7]; decide, by rw [h7]; decide⟩

end ParkinsonsML

